import Mathlib

/-!
Shallow embedding of the finbrAIn workflow core
(`backend/app/workflows/evaluator_optimizer.py` and
`backend/app/workflows/routing.py`) and proofs about it.

Modelling conventions:
* Python `float` scores are embedded as `Rat` (all score literals in the
  source are decimal constants, compared with `>=`).
* The generative oracle (`ChatOpenAI.ainvoke`) is external; a run receives
  an oracle as data: the response text of the i-th call, or an error when
  the call raises.  `json.loads` is the Python standard library, not code
  of this repository, so an oracle response carries both the raw text and
  the outcome of decoding it (`parsed = none` models `json.JSONDecodeError`;
  `parsed = some _` models a successful decode to a dict, of which we keep
  the projections the code reads).
* Python dicts that the workflow mutates are modelled with an explicit
  heap (`Store`): an artifact variable is a reference (`Ref`) into the
  store, `dict.copy()` and `json.loads` allocate fresh objects, and
  `d["analysis"] = text` writes through the reference, exactly as in
  CPython.  Artifact values are finite association lists with text values
  (the only artifact fields the code reads or writes are text-valued).
* `datetime.now()` timestamps and `print` calls are omitted: they do not
  influence any control flow or any claim.
-/

namespace Finbrain

/-- An artifact under refinement: models the Python `Dict[str, Any]`
analysis payload (`analysis` parameter of `process_with_evaluation`). -/
structure Artifact where
  fields : List (String × String)
deriving DecidableEq, Repr, Inhabited

/-- `k in d` for an artifact dict. -/
def Artifact.hasKey (a : Artifact) (k : String) : Bool :=
  (a.fields.lookup k).isSome

/-- `d[k] = v` (update the key if present, insert it otherwise), as a value
operation; the in-place aspect is modelled by `Store.write`. -/
def Artifact.setKey (a : Artifact) (k : String) (v : String) : Artifact :=
  if a.hasKey k then
    { fields := a.fields.map (fun p => if p.1 = k then (p.1, v) else p) }
  else
    { fields := a.fields ++ [(k, v)] }

/-- A reference to a heap-allocated dict (CPython object identity). -/
abbrev Ref := Nat

/-- The heap of artifact objects a run has allocated. -/
abbrev Store := List Artifact

/-- Allocate a fresh object and return its reference. -/
def Store.alloc (s : Store) (a : Artifact) : Store × Ref :=
  (s ++ [a], s.length)

/-- Dereference. -/
def Store.read (s : Store) (r : Ref) : Artifact :=
  s.getD r default

/-- In-place mutation of the object behind `r`. -/
def Store.write (s : Store) (r : Ref) (a : Artifact) : Store :=
  s.set r a

/-- The projections of a successfully `json.loads`-decoded evaluation dict
that `evaluate_analysis` and its callers read (`.get("overall_score", 0)`
and `.get("overall_rating", ...)`); `none` models an absent key. -/
structure ParsedEval where
  overall_score : Option Rat
  overall_rating : Option String
deriving DecidableEq, Repr

/-- The evaluator oracle's raw reply (`response.content`) together with the
outcome of `json.loads` on it (`parsed = none`: `JSONDecodeError`). -/
structure OracleEvalResponse where
  content : String
  parsed : Option ParsedEval
deriving DecidableEq, Repr

/-- The evaluation dict produced by `QualityEvaluator.evaluate_analysis`:
either the decoded oracle judgment extended with an `evaluator` tag, or
the fallback dict of `_create_fallback_evaluation` (which carries the
`error` and `raw_response` keys). -/
structure EvaluationResult where
  overall_score : Option Rat
  overall_rating : Option String
  error : Option String
  raw_response : Option String
  evaluator : String
deriving DecidableEq, Repr, Inhabited

/-- `QualityEvaluator._create_fallback_evaluation`: the fixed fallback
evaluation returned when JSON parsing of the judgment fails. -/
def create_fallback_evaluation (raw_response : String) : EvaluationResult :=
  { overall_score := some 6
    overall_rating := some "fair"
    error := some "Failed to parse evaluation response"
    raw_response := some raw_response
    evaluator := "QualityEvaluator (fallback)" }

/-- `QualityEvaluator.evaluate_analysis`, given the oracle's reply: on a
successful decode the parsed dict is returned (tagged `evaluator =
"QualityEvaluator"`); on `JSONDecodeError` the fallback is returned.  The
function is total: no parse exception escapes. -/
def evaluate_analysis (resp : OracleEvalResponse) : EvaluationResult :=
  match resp.parsed with
  | some p =>
      { overall_score := p.overall_score
        overall_rating := p.overall_rating
        error := none
        raw_response := none
        evaluator := "QualityEvaluator" }
  | none => create_fallback_evaluation resp.content

/-- The spec's `degraded` flag of an `EvaluationResult`: the source marks a
fallback evaluation by the presence of the `error` key (and the
`"QualityEvaluator (fallback)"` tag); a successful decode has no `error`
key. -/
def EvaluationResult.degraded (e : EvaluationResult) : Bool :=
  e.error.isSome

/-- `evaluation.get("overall_score", 0)`, the score every caller reads. -/
def EvaluationResult.score (e : EvaluationResult) : Rat :=
  e.overall_score.getD 0

/-- The dict returned by `AnalysisOptimizer.optimize_analysis`, restricted
to the field the loop reads (`optimized_analysis`, the oracle's raw
improvement text), paired with the outcome of `json.loads` on that text
(consulted only when the text starts with a brace). -/
structure Optimization where
  optimized_analysis : String
  parsedObj : Option Artifact
deriving DecidableEq, Repr

/-- `text.strip().startswith("\x7b")`: after discarding leading
whitespace, is the first character an opening brace?  (Python's `strip`
also removes trailing whitespace, which cannot affect `startswith` on a
one-character prefix: an all-whitespace string strips to the empty
string, the empty case here.)  Implemented on the character list so that
it evaluates in the kernel. -/
def startsWithBrace (s : String) : Bool :=
  match s.data.dropWhile Char.isWhitespace with
  | [] => false
  | c :: _ => c == '\x7b'

/-- The configuration held by `EvaluatorOptimizerWorkflow`. -/
structure WorkflowConfig where
  max_iterations : Nat
  min_quality_threshold : Rat
deriving DecidableEq, Repr

/-- `EvaluatorOptimizerWorkflow.__init__`: stores `max_iterations` and
`min_quality_threshold` verbatim; the source performs no validation of
either argument.  (A Python `max_iterations <= 0` makes
`range(max_iterations)` empty, which `max_iterations = 0` models.) -/
def mkEvaluatorOptimizerWorkflow (max_iterations : Nat)
    (min_quality_threshold : Rat) : WorkflowConfig :=
  { max_iterations := max_iterations
    min_quality_threshold := min_quality_threshold }

/-- The oracle of a single run: the evaluator's reply and the optimizer's
reply for each 0-based iteration index (`.error` models the call raising,
e.g. a transport failure of the LLM client). -/
structure RunOracle where
  evalResp : Nat → Except String OracleEvalResponse
  optResp : Nat → Except String Optimization

/-- One entry of `workflow_history` (the `iteration_record` dict).
`analysisRef` is the reference the record stores under `"analysis"` —
Python stores the dict object itself, not a copy. -/
structure IterationRecord where
  iteration : Nat
  analysisRef : Ref
  evaluation : EvaluationResult
  quality_score : Rat
  optimization : Option Optimization
  threshold_met : Bool
deriving DecidableEq, Repr, Inhabited

/-- The `workflow_summary` sub-dict of the result. -/
structure WorkflowSummary where
  initial_score : Rat
  final_score : Rat
  improvement : Rat
  threshold : Rat
  max_iterations : Nat
deriving DecidableEq, Repr, Inhabited

/-- The dict returned by `process_with_evaluation` (the fields the claims
concern; `improvements_made`, timestamps and the workflow tag are
omitted). -/
structure WorkflowResult where
  success : Bool
  final_analysisRef : Ref
  final_evaluation : EvaluationResult
  final_score : Rat
  iterations_performed : Nat
  quality_threshold_met : Bool
  workflow_history : List IterationRecord
  workflow_summary : WorkflowSummary
deriving DecidableEq, Repr, Inhabited

/-- The mutable state of the `for iteration in range(...)` loop.
`evalTrace` is ghost instrumentation (not Python state): the value of the
current artifact at the moment iteration `i` evaluated it, recorded so the
snapshot property of iteration records can be stated.  It influences no
other field. -/
structure LoopState where
  store : Store
  curRef : Ref
  history : List IterationRecord
  evalTrace : List Artifact
deriving Repr

/-- The text branch of the optimizer-merge (`current_analysis["analysis"] =
...` when the dict exposes an `analysis` key — an in-place write through
the existing reference — otherwise `current_analysis = {"analysis": ...}`,
a fresh object).  The `isinstance(current_analysis, dict)` guard is always
true in this model since artifacts are dicts. -/
def applyTextUpdate (store : Store) (r : Ref) (text : String) : Store × Ref :=
  let cur := store.read r
  if cur.hasKey "analysis" then
    (store.write r (cur.setKey "analysis" text), r)
  else
    store.alloc { fields := [("analysis", text)] }

/-- The three-way merge of an optimization into `current_analysis`
(lines 308–323 of `evaluator_optimizer.py`): if the optimized text starts
with a brace, try `json.loads`; on success rebind to the fresh decoded
object, on `JSONDecodeError` fall back to the text update; if the text
does not start with a brace, do the text update directly. -/
def mergeOptimizedAnalysis (store : Store) (r : Ref) (opt : Optimization) :
    Store × Ref :=
  if startsWithBrace opt.optimized_analysis then
    match opt.parsedObj with
    | some a => store.alloc a
    | none => applyTextUpdate store r opt.optimized_analysis
  else
    applyTextUpdate store r opt.optimized_analysis

/-- The body of `for iteration in range(self.max_iterations)` in
`process_with_evaluation`.  The first argument is the number of loop
indices still to run (`max_iterations - i`), the second the current
0-based `iteration`; an uncaught oracle exception propagates as
`.error`.  Python's `iteration < self.max_iterations - 1` over ints is
rendered as `i + 1 < max_iterations`. -/
def processLoop (cfg : WorkflowConfig) (oracle : RunOracle) :
    Nat → Nat → LoopState → Except String LoopState
  | 0, _, st => .ok st
  | rem + 1, i, st =>
    match oracle.evalResp i with
    | .error e => .error e
    | .ok resp =>
      let evaluation := evaluate_analysis resp
      let current_score := evaluation.score
      let artifactNow := st.store.read st.curRef
      let baseRec : IterationRecord :=
        { iteration := i + 1
          analysisRef := st.curRef
          evaluation := evaluation
          quality_score := current_score
          optimization := none
          threshold_met := false }
      if cfg.min_quality_threshold ≤ current_score then
        .ok { st with
                history := st.history ++ [{ baseRec with threshold_met := true }]
                evalTrace := st.evalTrace ++ [artifactNow] }
      else if i + 1 < cfg.max_iterations then
        match oracle.optResp i with
        | .error e => .error e
        | .ok opt =>
          let merged := mergeOptimizedAnalysis st.store st.curRef opt
          processLoop cfg oracle rem (i + 1)
            { store := merged.1
              curRef := merged.2
              history := st.history ++ [{ baseRec with optimization := some opt }]
              evalTrace := st.evalTrace ++ [artifactNow] }
      else
        processLoop cfg oracle rem (i + 1)
          { st with
              history := st.history ++ [baseRec]
              evalTrace := st.evalTrace ++ [artifactNow] }

/-- How a run of `process_with_evaluation` can fail: an uncaught oracle
exception, or the `IndexError` of `workflow_history[-1]` on an empty
history. -/
inductive RunError where
  | oracle (e : String)
  | indexError
deriving DecidableEq, Repr

/-- `str(e)` of a propagated run failure, as `batch_process` captures it. -/
def runErrorMessage : RunError → String
  | .oracle e => e
  | .indexError => "list index out of range"

/-- A completed run: the returned dict, plus the final heap (so stored
references can be dereferenced) and the ghost evaluation trace. -/
structure RunOutput where
  result : WorkflowResult
  store : Store
  evalTrace : List Artifact
deriving DecidableEq, Repr, Inhabited

/-- `EvaluatorOptimizerWorkflow.process_with_evaluation`:
`current_analysis = analysis.copy()` allocates the run's first object;
the loop then runs; afterwards `workflow_history[-1]` is read (raising
`IndexError` if the loop ran zero times) and the result dict is built. -/
def process_with_evaluation (cfg : WorkflowConfig) (oracle : RunOracle)
    (analysis : Artifact) : Except RunError RunOutput :=
  let init := Store.alloc [] analysis
  match processLoop cfg oracle cfg.max_iterations 0
      { store := init.1, curRef := init.2, history := [], evalTrace := [] } with
  | .error e => .error (.oracle e)
  | .ok st =>
    match st.history with
    | [] => .error .indexError
    | first :: rest =>
      let lastRec := rest.getLastD first
      let final_evaluation := lastRec.evaluation
      .ok { result :=
              { success := true
                final_analysisRef := st.curRef
                final_evaluation := final_evaluation
                final_score := final_evaluation.score
                iterations_performed := (first :: rest).length
                quality_threshold_met :=
                  decide (cfg.min_quality_threshold ≤ final_evaluation.score)
                workflow_history := first :: rest
                workflow_summary :=
                  { initial_score := first.quality_score
                    final_score := final_evaluation.score
                    improvement := final_evaluation.score - first.quality_score
                    threshold := cfg.min_quality_threshold
                    max_iterations := cfg.max_iterations } }
            store := st.store
            evalTrace := st.evalTrace }

/-- One entry of the list returned by `batch_process`: a run's result
dict, or the `\x7b"error": str(e)\x7d` dict capturing a propagated
exception. -/
inductive BatchEntry where
  | result (r : WorkflowResult)
  | errorEntry (msg : String)
deriving DecidableEq, Repr

/-- `EvaluatorOptimizerWorkflow.batch_process`: one run per input;
`asyncio.gather(..., return_exceptions=True)` collects results in input
order, and each exception is replaced by an error dict. -/
def batch_process (cfg : WorkflowConfig)
    (inputs : List (RunOracle × Artifact)) : List BatchEntry :=
  inputs.map (fun p =>
    match process_with_evaluation cfg p.1 p.2 with
    | .ok out => .result out.result
    | .error e => .errorEntry (runErrorMessage e))

/-- Is a batch entry the captured-error dict? -/
def BatchEntry.isErrorEntry : BatchEntry → Bool
  | .errorEntry _ => true
  | .result _ => false

/-- Is a batch entry a run result reporting `success = true`? -/
def BatchEntry.isSuccessResult : BatchEntry → Bool
  | .result r => r.success
  | .errorEntry _ => false

/-! ## Routing workflow (`backend/app/workflows/routing.py`) -/

/-- The `SpecialistType` enum of `routing.py`. -/
inductive SpecialistType where
  | earnings_analyst
  | news_analyst
  | market_analyst
  | technical_analyst
  | economic_analyst
  | general_analyst
deriving DecidableEq, Repr, BEq

/-- The closed set of specialist labels named by the classifier prompt
and the `SpecialistType` enum. -/
def specialistLabels : List String :=
  ["earnings_analyst", "news_analyst", "market_analyst",
   "technical_analyst", "economic_analyst", "general_analyst"]

/-- The projections of a successfully `json.loads`-decoded routing dict
that the workflow reads; a key the classifier omitted is `none`.  On a
successful decode `route_content` returns the dict verbatim, whatever it
contains. -/
structure RoutingDecision where
  content_type : Option String
  specialist : Option String
  confidence : Option Rat
  reasoning : Option String
  priority : Option String
  estimated_complexity : Option String
deriving DecidableEq, Repr, Inhabited

/-- The router oracle's raw reply together with the outcome of
`json.loads` on it (`parsed = none` models `JSONDecodeError`). -/
structure OracleRouteResponse where
  content : String
  parsed : Option RoutingDecision
deriving DecidableEq, Repr

/-- The fallback routing dict of `ContentRouter.route_content` (returned
when JSON parsing of the classifier output fails). -/
def fallbackRoutingDecision : RoutingDecision :=
  { content_type := some "unknown"
    specialist := some "general_analyst"
    confidence := some ((1 : Rat) / 2)
    reasoning := some "Failed to parse routing decision, using general analyst"
    priority := some "medium"
    estimated_complexity := some "moderate" }

/-- `ContentRouter.route_content`, given the classifier oracle's reply:
the decoded dict verbatim on success, the fallback dict on
`JSONDecodeError`.  Total: no parse exception escapes. -/
def route_content (resp : OracleRouteResponse) : RoutingDecision :=
  match resp.parsed with
  | some d => d
  | none => fallbackRoutingDecision

/-- The fixed data of one specialist agent: the literal fields its
`analyze` method puts into every result (`specialist` label,
`analysis_type`, focus list, confidence), around the oracle's reply text. -/
structure SpecialistAgent where
  label : String
  analysis_type : String
  focus : List String
  confidence : Rat
deriving DecidableEq, Repr

/-- `EarningsSpecialist.analyze`'s fixed result fields. -/
def earningsSpecialist : SpecialistAgent :=
  { label := "earnings_analyst"
    analysis_type := "financial_performance"
    focus := ["revenue", "eps", "margins", "cash_flow"]
    confidence := (9 : Rat) / 10 }

/-- `NewsSpecialist.analyze`'s fixed result fields. -/
def newsSpecialist : SpecialistAgent :=
  { label := "news_analyst"
    analysis_type := "sentiment_and_impact"
    focus := ["sentiment", "market_impact", "risks", "opportunities"]
    confidence := (17 : Rat) / 20 }

/-- `MarketSpecialist.analyze`'s fixed result fields. -/
def marketSpecialist : SpecialistAgent :=
  { label := "market_analyst"
    analysis_type := "market_data_analysis"
    focus := ["price_action", "volume", "trends", "levels"]
    confidence := (22 : Rat) / 25 }

/-- `TechnicalSpecialist.analyze`'s fixed result fields. -/
def technicalSpecialist : SpecialistAgent :=
  { label := "technical_analyst"
    analysis_type := "technical_analysis"
    focus := ["patterns", "indicators", "levels", "signals"]
    confidence := (41 : Rat) / 50 }

/-- `EconomicSpecialist.analyze`'s fixed result fields. -/
def economicSpecialist : SpecialistAgent :=
  { label := "economic_analyst"
    analysis_type := "macroeconomic_analysis"
    focus := ["indicators", "policy", "markets", "strategy"]
    confidence := (87 : Rat) / 100 }

/-- A specialist result dict (`SpecialistResult` of the spec): fixed agent
fields plus the analysis text.  The source names the focus key
`key_metrics_focus` for earnings and `focus_areas` for the others; both
are modelled as `focus`. -/
structure SpecialistResult where
  specialist : String
  analysis : String
  analysis_type : String
  focus : List String
  confidence : Rat
deriving DecidableEq, Repr

/-- A specialist's `analyze`, given the oracle's reply text. -/
def SpecialistAgent.analyze (agent : SpecialistAgent) (text : String) :
    SpecialistResult :=
  { specialist := agent.label
    analysis := text
    analysis_type := agent.analysis_type
    focus := agent.focus
    confidence := agent.confidence }

/-- The `specialist_mapping` dict of `RoutingWorkflow.process_content`:
string label to enum, five entries; `general_analyst` has no entry. -/
def specialist_mapping : List (String × SpecialistType) :=
  [("earnings_analyst", .earnings_analyst),
   ("news_analyst", .news_analyst),
   ("market_analyst", .market_analyst),
   ("technical_analyst", .technical_analyst),
   ("economic_analyst", .economic_analyst)]

/-- `specialist_mapping.get(specialist_type_str, SpecialistType.NEWS_ANALYST)`
(line 395 of `routing.py`). -/
def dispatchTargetOf (specialist_type_str : String) : SpecialistType :=
  (specialist_mapping.lookup specialist_type_str).getD .news_analyst

/-- The `self.specialists` dict of `RoutingWorkflow.__init__`: five
specialist instances keyed by enum; no entry for `GENERAL_ANALYST`. -/
def specialists : List (SpecialistType × SpecialistAgent) :=
  [(.earnings_analyst, earningsSpecialist),
   (.news_analyst, newsSpecialist),
   (.market_analyst, marketSpecialist),
   (.technical_analyst, technicalSpecialist),
   (.economic_analyst, economicSpecialist)]

/-- The oracles one `process_content` call may consult: the classifier
reply, and the analysis reply of whichever specialist is invoked
(`.error` models the call raising). -/
structure ProcessOracle where
  routeResp : Except String OracleRouteResponse
  analyzeResp : SpecialistType → Except String String

/-- The three dict shapes `RoutingWorkflow.process_content` can return:
the success dict, the `"No specialist available"` error dict, and the
`success=False` dict of the surrounding `except` clause. -/
inductive ProcessOutcome where
  | success (routing_decision : RoutingDecision)
      (specialist_analysis : SpecialistResult)
  | noSpecialist (specialist_type_str : String)
      (routing_decision : RoutingDecision)
  | failure (error : String)
deriving DecidableEq, Repr

/-- Is the outcome the success dict? -/
def ProcessOutcome.isSuccess : ProcessOutcome → Bool
  | .success _ _ => true
  | _ => false

/-- Is the outcome the `success=False` exception dict? -/
def ProcessOutcome.isFailure : ProcessOutcome → Bool
  | .failure _ => true
  | _ => false

/-- `RoutingWorkflow.process_content`: route, map the decision's
`specialist` string (default `"general_analyst"`) through
`specialist_mapping` (default `NEWS_ANALYST`), look the enum up in
`self.specialists`, and run the specialist; any exception from an oracle
call is caught by the surrounding `try` and returned as a failure dict. -/
def process_content (o : ProcessOracle) : ProcessOutcome :=
  match o.routeResp with
  | .error e => .failure e
  | .ok resp =>
    let routing_decision := route_content resp
    let specialist_type_str := routing_decision.specialist.getD "general_analyst"
    let specialist_type := dispatchTargetOf specialist_type_str
    match specialists.lookup specialist_type with
    | none => .noSpecialist specialist_type_str routing_decision
    | some agent =>
      match o.analyzeResp specialist_type with
      | .error e => .failure e
      | .ok text => .success routing_decision (agent.analyze text)

/-- `RoutingWorkflow.process_multiple_content`: one `process_content` per
input, results in input order (`asyncio.gather` order guarantee);
`process_content` never raises, so the `return_exceptions` wrapper is
the identity here. -/
def process_multiple_content (inputs : List ProcessOracle) :
    List ProcessOutcome :=
  inputs.map process_content

/-! ## Concrete fixtures (used by witnesses and counterexamples) -/

/-- A sample starting artifact: a dict exposing an `analysis` text field. -/
def sampleArtifact : Artifact :=
  { fields := [("symbol", "AAPL"), ("analysis", "original narrative")] }

/-- An evaluator reply whose text does not decode as JSON. -/
def degradedResp : OracleEvalResponse :=
  { content := "not json at all", parsed := none }

/-- An evaluator reply decoding to `overall_score = 6` (below a 7.0 bar). -/
def fairResp : OracleEvalResponse :=
  { content := "judged fair", parsed := some { overall_score := some 6, overall_rating := some "fair" } }

/-- An evaluator reply decoding to `overall_score = 9` (above a 7.0 bar). -/
def excellentResp : OracleEvalResponse :=
  { content := "judged excellent", parsed := some { overall_score := some 9, overall_rating := some "excellent" } }

/-- An optimizer reply that is plain prose (not brace-prefixed). -/
def textOpt : Optimization :=
  { optimized_analysis := "improved narrative", parsedObj := none }

/-- An oracle whose every evaluation reply is unparseable (so every
evaluation is the degraded fallback, score 6). -/
def degradedOracle : RunOracle :=
  { evalResp := fun _ => .ok degradedResp
    optResp := fun _ => .ok textOpt }

/-- An oracle scoring every iteration 9. -/
def excellentOracle : RunOracle :=
  { evalResp := fun _ => .ok excellentResp
    optResp := fun _ => .ok textOpt }

/-- An oracle scoring every iteration 6, optimizing with plain prose. -/
def fairOracle : RunOracle :=
  { evalResp := fun _ => .ok fairResp
    optResp := fun _ => .ok textOpt }

/-- An oracle whose evaluation call raises from the second iteration on. -/
def failingOracle : RunOracle :=
  { evalResp := fun i => if i = 0 then .ok fairResp else .error "oracle transport failure"
    optResp := fun _ => .ok textOpt }

/-- An oracle whose very first evaluation call raises. -/
def failAtZeroOracle : RunOracle :=
  { evalResp := fun _ => .error "boom"
    optResp := fun _ => .ok textOpt }

/-- `max_iterations = 3`, `min_quality_threshold = 7.0` (the defaults). -/
def cfg3_7 : WorkflowConfig := { max_iterations := 3, min_quality_threshold := 7 }

/-- `max_iterations = 2`, `min_quality_threshold = 7.0`. -/
def cfg2_7 : WorkflowConfig := { max_iterations := 2, min_quality_threshold := 7 }

/-- The completed run of `excellentOracle` under `cfg3_7` (threshold met
on the first iteration). -/
def thresholdRunOut : RunOutput :=
  match process_with_evaluation cfg3_7 excellentOracle sampleArtifact with
  | .ok o => o
  | .error _ => default

/-- The single record of `thresholdRunOut`. -/
def thresholdRunRec : IterationRecord :=
  thresholdRunOut.result.workflow_history.headD default

/-- The completed run of `fairOracle` under `cfg2_7` (the run whose first
iteration's stored artifact is mutated in place by the optimizer merge). -/
def mutatedRunOut : RunOutput :=
  match process_with_evaluation cfg2_7 fairOracle sampleArtifact with
  | .ok o => o
  | .error _ => default

/-- A classifier reply whose text does not decode as JSON. -/
def unparseableRouteResp : OracleRouteResponse :=
  { content := "I think earnings maybe?", parsed := none }

/-- A classifier reply that decodes to a dict whose `specialist` value is
outside the closed label set. -/
def offLabelDecision : RoutingDecision :=
  { content_type := some "news"
    specialist := some "pastry_chef"
    confidence := some 1
    reasoning := some "routed creatively"
    priority := some "high"
    estimated_complexity := some "simple" }

/-- An oracle reply carrying `offLabelDecision`. -/
def offLabelResp : OracleRouteResponse :=
  { content := "valid json, wild label", parsed := some offLabelDecision }

/-- A `process_content` oracle whose classifier answers `offLabelResp`. -/
def offLabelProcessOracle : ProcessOracle :=
  { routeResp := .ok offLabelResp
    analyzeResp := fun _ => .ok "routed news analysis" }

/-- A `process_content` oracle whose classifier reply is unparseable and
whose analysis call succeeds. -/
def okRouteOracle : ProcessOracle :=
  { routeResp := .ok unparseableRouteResp
    analyzeResp := fun _ => .ok "fallback news analysis" }

/-- A `process_content` oracle whose classifier call itself raises. -/
def routeFailOracle : ProcessOracle :=
  { routeResp := .error "route transport failure"
    analyzeResp := fun _ => .ok "unused" }

/-- A two-element evaluator batch: the first input's runs all succeed
(degraded evaluations), the second input's first oracle call raises. -/
def batchInputsW : List (RunOracle × Artifact) :=
  [(degradedOracle, sampleArtifact), (failAtZeroOracle, sampleArtifact)]

/-- A two-element routing batch: the first input succeeds, the second
input's classifier call raises. -/
def routeInputsW : List ProcessOracle :=
  [okRouteOracle, routeFailOracle]

/-! ## Loop lemmas -/

/-- If every oracle call succeeds, the refinement loop returns normally,
appends at most `rem` records, and appends at least one when `rem > 0`. -/
theorem processLoop_total (cfg : WorkflowConfig) (oracle : RunOracle)
    (hev : ∀ j, (oracle.evalResp j).isOk)
    (hop : ∀ j, (oracle.optResp j).isOk) :
    ∀ rem i st, ∃ st', processLoop cfg oracle rem i st = .ok st' ∧
      st.history.length ≤ st'.history.length ∧
      st'.history.length ≤ st.history.length + rem ∧
      (0 < rem → st.history.length < st'.history.length) := by
  intro rem
  induction rem with
  | zero =>
    intro i st
    exact ⟨st, rfl, Nat.le_refl _, by omega, by omega⟩
  | succ rem ih =>
    intro i st
    have hev' := hev i
    rcases hresp : oracle.evalResp i with e | resp
    · rw [hresp] at hev'
      simp [Except.isOk, Except.toBool] at hev'
    · have step : ∀ st2 : LoopState, st2.history.length = st.history.length + 1 →
          ∃ st', processLoop cfg oracle rem (i + 1) st2 = .ok st' ∧
            st.history.length ≤ st'.history.length ∧
            st'.history.length ≤ st.history.length + (rem + 1) ∧
            (0 < rem + 1 → st.history.length < st'.history.length) := by
        intro st2 hlen
        obtain ⟨st', h1, h2, h3, _⟩ := ih (i + 1) st2
        exact ⟨st', h1, by omega, by omega, fun _ => by omega⟩
      by_cases hth : cfg.min_quality_threshold ≤ (evaluate_analysis resp).score
      · refine ⟨{ st with
            history := st.history ++
              [{ iteration := i + 1
                 analysisRef := st.curRef
                 evaluation := evaluate_analysis resp
                 quality_score := (evaluate_analysis resp).score
                 optimization := none
                 threshold_met := true }]
            evalTrace := st.evalTrace ++ [st.store.read st.curRef] }, ?_, ?_, ?_, ?_⟩
        · simp only [processLoop, hresp]
          rw [if_pos hth]
        · simp
        · simp
        · intro _; simp
      · by_cases hlt : i + 1 < cfg.max_iterations
        · have hop' := hop i
          rcases hopt : oracle.optResp i with e | opt
          · rw [hopt] at hop'
            simp [Except.isOk, Except.toBool] at hop'
          · obtain ⟨st', h1, h2, h3, h4⟩ := step
              { store := (mergeOptimizedAnalysis st.store st.curRef opt).1
                curRef := (mergeOptimizedAnalysis st.store st.curRef opt).2
                history := st.history ++
                  [{ iteration := i + 1
                     analysisRef := st.curRef
                     evaluation := evaluate_analysis resp
                     quality_score := (evaluate_analysis resp).score
                     optimization := some opt
                     threshold_met := false }]
                evalTrace := st.evalTrace ++ [st.store.read st.curRef] }
              (by simp)
            refine ⟨st', ?_, h2, h3, h4⟩
            simp only [processLoop, hresp]
            rw [if_neg hth, if_pos hlt]
            simp only [hopt]
            exact h1
        · obtain ⟨st', h1, h2, h3, h4⟩ := step
            { st with
                history := st.history ++
                  [{ iteration := i + 1
                     analysisRef := st.curRef
                     evaluation := evaluate_analysis resp
                     quality_score := (evaluate_analysis resp).score
                     optimization := none
                     threshold_met := false }]
                evalTrace := st.evalTrace ++ [st.store.read st.curRef] }
            (by simp)
          refine ⟨st', ?_, h2, h3, h4⟩
          simp only [processLoop, hresp]
          rw [if_neg hth, if_neg hlt]
          exact h1

/-- Unfolding equation for `process_with_evaluation` with the initial
allocation computed (used to rewrite runs once the loop's outcome is
known). -/
theorem process_with_evaluation_unfold (cfg : WorkflowConfig)
    (oracle : RunOracle) (analysis : Artifact) :
    process_with_evaluation cfg oracle analysis =
      match processLoop cfg oracle cfg.max_iterations 0
          { store := [analysis], curRef := 0, history := [], evalTrace := [] } with
      | .error e => .error (.oracle e)
      | .ok st =>
        match st.history with
        | [] => .error .indexError
        | first :: rest =>
          .ok { result :=
                  { success := true
                    final_analysisRef := st.curRef
                    final_evaluation := (rest.getLastD first).evaluation
                    final_score := (rest.getLastD first).evaluation.score
                    iterations_performed := (first :: rest).length
                    quality_threshold_met :=
                      decide (cfg.min_quality_threshold ≤
                        (rest.getLastD first).evaluation.score)
                    workflow_history := first :: rest
                    workflow_summary :=
                      { initial_score := first.quality_score
                        final_score := (rest.getLastD first).evaluation.score
                        improvement :=
                          (rest.getLastD first).evaluation.score - first.quality_score
                        threshold := cfg.min_quality_threshold
                        max_iterations := cfg.max_iterations } }
                store := st.store
                evalTrace := st.evalTrace } := rfl

/-- C1: for every starting artifact and every configuration with
`max_iterations ≥ 1`, `process_with_evaluation` terminates normally
whenever the oracle calls do (even if every evaluation is the degraded
fallback and no score reaches the threshold), performs at most
`max_iterations` iterations, and reports a history whose length equals
`iterations_performed`. -/
theorem C1_bounded_termination (cfg : WorkflowConfig) (oracle : RunOracle)
    (analysis : Artifact)
    (hmax : 1 ≤ cfg.max_iterations)
    (hev : ∀ j, (oracle.evalResp j).isOk)
    (hop : ∀ j, (oracle.optResp j).isOk) :
    ∃ out, process_with_evaluation cfg oracle analysis = .ok out ∧
      out.result.iterations_performed ≤ cfg.max_iterations ∧
      out.result.workflow_history.length = out.result.iterations_performed := by
  obtain ⟨st', hok, hmono, hub, hlb⟩ :=
    processLoop_total cfg oracle hev hop cfg.max_iterations 0
      { store := [analysis], curRef := 0, history := [], evalTrace := [] }
  have hlen : st'.history.length ≤ cfg.max_iterations := by
    simpa using hub
  have hpos : 0 < st'.history.length := by
    have := hlb (by omega)
    simpa using this
  cases hh : st'.history with
  | nil => rw [hh] at hpos; simp at hpos
  | cons first rest =>
    have hrun := process_with_evaluation_unfold cfg oracle analysis
    rw [hok] at hrun
    simp only [hh] at hrun
    refine ⟨_, hrun, ?_, rfl⟩
    show (first :: rest).length ≤ cfg.max_iterations
    rw [← hh]
    exact hlen

/-- C1 witness: the degraded-everywhere oracle under the default
configuration (`max_iterations = 3`, threshold 7): the run terminates,
`iterations_performed ≤ 3`, and the history length matches. -/
theorem C1_witness :
    1 ≤ cfg3_7.max_iterations ∧
    (∃ out, process_with_evaluation cfg3_7 degradedOracle sampleArtifact = .ok out ∧
      out.result.iterations_performed ≤ cfg3_7.max_iterations ∧
      out.result.workflow_history.length = out.result.iterations_performed) :=
  ⟨by decide,
   C1_bounded_termination cfg3_7 degradedOracle sampleArtifact (by decide)
     (fun _ => rfl) (fun _ => rfl)⟩

/-- List helper: in a list whose non-final entries all satisfy `P`, an
entry failing `P` can only be the final one. -/
theorem get_outside_dropLast_is_last {α : Type} (P : α → Prop) :
    ∀ (l : List α) (k : Nat) (x : α),
      (∀ r ∈ l.dropLast, P r) → l.get? k = some x → ¬ P x →
      k + 1 = l.length ∧ l.getLast? = some x := by
  intro l
  induction l with
  | nil => intro k x _ hget _; simp at hget
  | cons a l ih =>
    intro k x hdrop hget hnx
    cases l with
    | nil =>
      cases k with
      | zero =>
        simp at hget
        subst hget
        exact ⟨rfl, rfl⟩
      | succ k => simp at hget
    | cons b l2 =>
      cases k with
      | zero =>
        have hax : a = x := by simpa using hget
        exact absurd (hax ▸ hdrop a (List.mem_cons_self a _)) hnx
      | succ k =>
        have hget' : (b :: l2).get? k = some x := by simpa using hget
        have hdrop' : ∀ r ∈ (b :: l2).dropLast, P r := by
          intro r hr
          refine hdrop r ?_
          simp [List.dropLast]
          exact Or.inr hr
        obtain ⟨h1, h2⟩ := ih k x hdrop' hget' hnx
        refine ⟨by simp [← h1], ?_⟩
        rw [List.getLast?_cons_cons]
        exact h2

/-- Records appended by one run of the loop: every appended record's
`quality_score` is its evaluation's score, every non-final appended
record scored below the threshold, and a final record at or above the
threshold carries `threshold_met = true` and no optimization. -/
theorem processLoop_history_structure (cfg : WorkflowConfig) (oracle : RunOracle) :
    ∀ rem i st st', processLoop cfg oracle rem i st = .ok st' →
      ∃ tail, st'.history = st.history ++ tail ∧
        (∀ r ∈ tail, r.quality_score = r.evaluation.score) ∧
        (∀ r ∈ tail.dropLast, r.quality_score < cfg.min_quality_threshold) ∧
        (∀ r, tail.getLast? = some r →
          cfg.min_quality_threshold ≤ r.quality_score →
          r.threshold_met = true ∧ r.optimization = none) := by
  intro rem
  induction rem with
  | zero =>
    intro i st st' h
    cases h
    exact ⟨[], by simp, by simp, by simp, by simp⟩
  | succ rem ih =>
    intro i st st' h
    rcases hresp : oracle.evalResp i with e | resp
    · simp only [processLoop, hresp] at h
      exact Except.noConfusion h
    · simp only [processLoop, hresp] at h
      by_cases hth : cfg.min_quality_threshold ≤ (evaluate_analysis resp).score
      · rw [if_pos hth] at h
        cases h
        refine ⟨[{ iteration := i + 1
                   analysisRef := st.curRef
                   evaluation := evaluate_analysis resp
                   quality_score := (evaluate_analysis resp).score
                   optimization := none
                   threshold_met := true }], rfl, ?_, by simp, ?_⟩
        · intro r hr
          simp at hr
          subst hr
          rfl
        · intro r hr _
          simp at hr
          subst hr
          exact ⟨rfl, rfl⟩
      · rw [if_neg hth] at h
        have below : (evaluate_analysis resp).score < cfg.min_quality_threshold :=
          lt_of_not_le hth
        by_cases hlt : i + 1 < cfg.max_iterations
        · rw [if_pos hlt] at h
          rcases hopt : oracle.optResp i with e | opt
          · simp only [hopt] at h
            exact Except.noConfusion h
          · simp only [hopt] at h
            obtain ⟨tail, hH, hS, hD, hL⟩ := ih _ _ _ h
            refine ⟨{ iteration := i + 1
                      analysisRef := st.curRef
                      evaluation := evaluate_analysis resp
                      quality_score := (evaluate_analysis resp).score
                      optimization := some opt
                      threshold_met := false } :: tail, ?_, ?_, ?_, ?_⟩
            · rw [hH]
              simp
            · intro r hr
              rcases List.mem_cons.mp hr with h0 | h0
              · subst h0; rfl
              · exact hS r h0
            · intro r hr
              cases tail with
              | nil => simp [List.dropLast] at hr
              | cons b bs =>
                rw [show (_ :: b :: bs).dropLast = _ :: (b :: bs).dropLast from rfl] at hr
                rcases List.mem_cons.mp hr with h0 | h0
                · subst h0; exact below
                · exact hD r h0
            · intro r hr hge
              cases tail with
              | nil =>
                simp at hr
                subst hr
                exact absurd hge (not_le.mpr below)
              | cons b bs =>
                rw [List.getLast?_cons_cons] at hr
                exact hL r hr hge
        · rw [if_neg hlt] at h
          obtain ⟨tail, hH, hS, hD, hL⟩ := ih _ _ _ h
          refine ⟨{ iteration := i + 1
                    analysisRef := st.curRef
                    evaluation := evaluate_analysis resp
                    quality_score := (evaluate_analysis resp).score
                    optimization := none
                    threshold_met := false } :: tail, ?_, ?_, ?_, ?_⟩
          · rw [hH]
            simp
          · intro r hr
            rcases List.mem_cons.mp hr with h0 | h0
            · subst h0; rfl
            · exact hS r h0
          · intro r hr
            cases tail with
            | nil => simp [List.dropLast] at hr
            | cons b bs =>
              rw [show (_ :: b :: bs).dropLast = _ :: (b :: bs).dropLast from rfl] at hr
              rcases List.mem_cons.mp hr with h0 | h0
              · subst h0; exact below
              · exact hD r h0
          · intro r hr hge
            cases tail with
            | nil =>
              simp at hr
              subst hr
              exact absurd hge (not_le.mpr below)
            | cons b bs =>
              rw [List.getLast?_cons_cons] at hr
              exact hL r hr hge

/-- C2: in every run's result, an iteration record at or above the
quality threshold is the final record: the run reports
`quality_threshold_met = true`, the record's index `k` satisfies
`k + 1 = history length = iterations_performed` (so no further iteration
ran after it), its `threshold_met` field is true and its `optimization`
is null. -/
theorem C2_threshold_correctness (cfg : WorkflowConfig) (oracle : RunOracle)
    (analysis : Artifact) (out : RunOutput)
    (hrun : process_with_evaluation cfg oracle analysis = .ok out)
    (k : Nat) (rec : IterationRecord)
    (hget : out.result.workflow_history.get? k = some rec)
    (hsc : cfg.min_quality_threshold ≤ rec.quality_score) :
    out.result.quality_threshold_met = true ∧
    k + 1 = out.result.workflow_history.length ∧
    out.result.workflow_history.getLast? = some rec ∧
    rec.threshold_met = true ∧
    rec.optimization = none ∧
    out.result.iterations_performed = k + 1 := by
  have huf := process_with_evaluation_unfold cfg oracle analysis
  rcases hok : processLoop cfg oracle cfg.max_iterations 0
      { store := [analysis], curRef := 0, history := [], evalTrace := [] } with e | st
  · rw [hok] at huf
    rw [huf] at hrun
    exact Except.noConfusion hrun
  · rw [hok] at huf
    obtain ⟨tail, hH, hS, hD, hL⟩ := processLoop_history_structure cfg oracle _ _ _ _ hok
    have htail : st.history = tail := by simpa using hH
    cases hh : st.history with
    | nil =>
      simp only [hh] at huf
      rw [huf] at hrun
      exact Except.noConfusion hrun
    | cons first rest =>
      simp only [hh] at huf
      rw [huf] at hrun
      injection hrun with hout
      subst hout
      have hrecs : tail = first :: rest := by rw [← htail, hh]
      subst hrecs
      dsimp only at hget hsc ⊢
      have hmem : rec ∈ first :: rest := List.get?_mem hget
      have hnx : ¬ rec.quality_score < cfg.min_quality_threshold := not_lt.mpr hsc
      obtain ⟨hidx, hlast⟩ :=
        get_outside_dropLast_is_last
          (fun r => r.quality_score < cfg.min_quality_threshold)
          (first :: rest) k rec hD hget hnx
      have hlastD : rest.getLastD first = rec := by
        rw [List.getLast?_cons] at hlast
        rw [List.getLastD_eq_getLast?]
        exact Option.some.inj hlast
      obtain ⟨hmet, hopt⟩ := hL rec hlast hsc
      refine ⟨?_, hidx, hlast, hmet, hopt, hidx.symm⟩
      rw [hlastD]
      have : cfg.min_quality_threshold ≤ rec.evaluation.score := by
        rw [← hS rec hmem]
        exact hsc
      exact decide_eq_true this

/-- C2 witness: the oracle scoring 9 on the first iteration under
threshold 7 stops after exactly one iteration with all the threshold
properties. -/
theorem C2_witness :
    thresholdRunOut.result.quality_threshold_met = true ∧
    0 + 1 = thresholdRunOut.result.workflow_history.length ∧
    thresholdRunOut.result.workflow_history.getLast? = some thresholdRunRec ∧
    thresholdRunRec.threshold_met = true ∧
    thresholdRunRec.optimization = none ∧
    thresholdRunOut.result.iterations_performed = 0 + 1 :=
  C2_threshold_correctness cfg3_7 excellentOracle sampleArtifact thresholdRunOut
    (by rfl) 0 thresholdRunRec (by rfl) (by decide)

/-- C3: for every oracle reply whose text does not decode as JSON,
`evaluate_analysis` returns the fallback evaluation: degraded, score
exactly 6.0, rating "fair", the raw text preserved — the score is the
fixed constant, never derived from the malformed text (the equation holds
for every such reply uniformly).  The function is total, so no parse
exception is raised. -/
theorem C3_fallback_safety (resp : OracleEvalResponse)
    (h : resp.parsed = none) :
    evaluate_analysis resp = create_fallback_evaluation resp.content ∧
    (evaluate_analysis resp).degraded = true ∧
    (evaluate_analysis resp).overall_score = some 6 ∧
    (evaluate_analysis resp).overall_rating = some "fair" ∧
    (evaluate_analysis resp).raw_response = some resp.content ∧
    (evaluate_analysis resp).score = 6 := by
  simp [evaluate_analysis, h, create_fallback_evaluation,
    EvaluationResult.degraded, EvaluationResult.score]

/-- C3 witness: the concrete unparseable reply `"not json at all"`. -/
theorem C3_witness :
    evaluate_analysis degradedResp = create_fallback_evaluation degradedResp.content ∧
    (evaluate_analysis degradedResp).degraded = true ∧
    (evaluate_analysis degradedResp).overall_score = some 6 ∧
    (evaluate_analysis degradedResp).overall_rating = some "fair" ∧
    (evaluate_analysis degradedResp).raw_response = some degradedResp.content ∧
    (evaluate_analysis degradedResp).score = 6 :=
  C3_fallback_safety degradedResp rfl

/-- C4 counterexample: a classifier reply that *does* decode as JSON is
returned verbatim, so `route_content` can return a specialist label
outside the fixed closed set — the claim's closed-set guarantee fails. -/
theorem C4_counterexample :
    (route_content offLabelResp).specialist = some "pastry_chef" ∧
    "pastry_chef" ∉ specialistLabels := by
  constructor
  · rfl
  · decide

/-- C4 (amended): `route_content` is total; when the classifier output
fails to parse it returns the default decision — specialist
`"general_analyst"` (in the closed set), confidence exactly 0.5,
content type `"unknown"` — and no exception; when the output parses, the
decoded dict is returned verbatim, with no closed-set restriction on its
specialist field. -/
theorem C4_amended_parse_fallback (resp : OracleRouteResponse)
    (h : resp.parsed = none) :
    route_content resp = fallbackRoutingDecision ∧
    (route_content resp).specialist = some "general_analyst" ∧
    (route_content resp).confidence = some ((1 : Rat) / 2) ∧
    (route_content resp).content_type = some "unknown" ∧
    (route_content resp).specialist.getD "general_analyst" ∈ specialistLabels := by
  have : route_content resp = fallbackRoutingDecision := by
    simp [route_content, h]
  refine ⟨this, ?_, ?_, ?_, ?_⟩ <;> rw [this]
  · rfl
  · rfl
  · rfl
  · decide

/-- C4 witness: the concrete unparseable classifier reply. -/
theorem C4_witness :
    route_content unparseableRouteResp = fallbackRoutingDecision ∧
    (route_content unparseableRouteResp).specialist = some "general_analyst" ∧
    (route_content unparseableRouteResp).confidence = some ((1 : Rat) / 2) ∧
    (route_content unparseableRouteResp).content_type = some "unknown" ∧
    (route_content unparseableRouteResp).specialist.getD "general_analyst" ∈
      specialistLabels :=
  C4_amended_parse_fallback unparseableRouteResp rfl

/-- C5 counterexample: a routing decision whose specialist label
`"pastry_chef"` is handled by no specialist is dispatched anyway — the
run succeeds with the news specialist's result instead of failing with a
distinct unhandled-label error. -/
theorem C5_counterexample :
    specialist_mapping.lookup "pastry_chef" = none ∧
    process_content offLabelProcessOracle =
      .success offLabelDecision (newsSpecialist.analyze "routed news analysis") := by
  constructor
  · rfl
  · rfl

/-- C5 (amended): a routing decision whose specialist label is not among
the handled identifiers is silently dispatched to the news specialist
(`specialist_mapping.get(..., NEWS_ANALYST)`); no distinct
unhandled-label error exists in the code. -/
theorem C5_amended_silent_default (o : ProcessOracle) (resp : OracleRouteResponse)
    (hr : o.routeResp = .ok resp)
    (hlabel : specialist_mapping.lookup
      ((route_content resp).specialist.getD "general_analyst") = none)
    (text : String) (ha : o.analyzeResp .news_analyst = .ok text) :
    process_content o = .success (route_content resp) (newsSpecialist.analyze text) := by
  have hdt : dispatchTargetOf
      ((route_content resp).specialist.getD "general_analyst") = .news_analyst := by
    unfold dispatchTargetOf
    rw [hlabel]
    rfl
  simp only [process_content, hr, hdt]
  rw [show specialists.lookup SpecialistType.news_analyst = some newsSpecialist from rfl]
  simp only [ha]

/-- C5 amended witness: the off-label oracle again. -/
theorem C5_witness :
    process_content offLabelProcessOracle =
      .success (route_content offLabelResp)
        (newsSpecialist.analyze "routed news analysis") :=
  C5_amended_silent_default offLabelProcessOracle offLabelResp rfl (by rfl)
    "routed news analysis" rfl

/-- C6 counterexample: under `failingOracle` the first iteration completes
and appends a record (second conjunct: one loop step yields history
length 1), yet when the second iteration's oracle call raises, the whole
run returns the bare propagated error — no partial `WorkflowResult`, no
`success = false` dict, and none of the completed records. -/
theorem C6_counterexample :
    process_with_evaluation cfg3_7 failingOracle sampleArtifact =
      .error (.oracle "oracle transport failure") ∧
    (processLoop cfg3_7 failingOracle 1 0
        { store := [sampleArtifact], curRef := 0, history := [], evalTrace := [] }).map
      (fun st => st.history.length) = .ok 1 :=
  ⟨rfl, rfl⟩

/-- C6 (amended): when an evaluation oracle call raises mid-loop (here:
iteration 0 completes below threshold, optimization succeeds, and the
second evaluation call fails), `process_with_evaluation` propagates the
raw error: it returns no `WorkflowResult`, and the records completed
before the failure are discarded (only `batch_process` captures the
propagated exception, as a bare error entry without history). -/
theorem C6_amended_error_propagation (cfg : WorkflowConfig) (oracle : RunOracle)
    (analysis : Artifact) (resp0 : OracleEvalResponse)
    (h0 : oracle.evalResp 0 = .ok resp0)
    (hbelow : (evaluate_analysis resp0).score < cfg.min_quality_threshold)
    (opt0 : Optimization) (hopt : oracle.optResp 0 = .ok opt0)
    (e : String) (h1 : oracle.evalResp 1 = .error e)
    (hmax : 2 ≤ cfg.max_iterations) :
    process_with_evaluation cfg oracle analysis = .error (.oracle e) := by
  obtain ⟨r, hr⟩ : ∃ r, cfg.max_iterations = r + 2 :=
    ⟨cfg.max_iterations - 2, by omega⟩
  rw [process_with_evaluation_unfold, hr]
  have hloop : processLoop cfg oracle (r + 2) 0
      { store := [analysis], curRef := 0, history := [], evalTrace := [] } =
      .error e := by
    rw [show r + 2 = (r + 1) + 1 from rfl]
    simp only [processLoop, h0]
    rw [if_neg (not_le.mpr hbelow)]
    rw [if_pos (show 0 + 1 < cfg.max_iterations by omega)]
    simp only [hopt, processLoop, Nat.zero_add, h1]
  rw [hloop]

/-- C6 amended witness: the concrete failing oracle run. -/
theorem C6_witness :
    process_with_evaluation cfg3_7 failingOracle sampleArtifact =
      .error (.oracle "oracle transport failure") :=
  C6_amended_error_propagation cfg3_7 failingOracle sampleArtifact fairResp rfl
    (by decide) textOpt rfl "oracle transport failure" rfl (by decide)

/-- C7: the aliasing failure.  Under `cfg2_7`/`fairOracle` the first
iteration evaluates the original artifact (second conjunct: the ghost
trace records it), but the optimizer's text merge mutates that same dict
in place, so dereferencing the first appended record's stored artifact in
the final heap yields the *optimized* text (third conjunct), no longer
the artifact that was evaluated (fourth conjunct): an appended record is
retroactively changed, contradicting the immutable-once-appended /
new-value-per-refinement claim. -/
theorem C7_record_mutated_in_place :
    process_with_evaluation cfg2_7 fairOracle sampleArtifact = .ok mutatedRunOut ∧
    mutatedRunOut.evalTrace.get? 0 =
      some { fields := [("symbol", "AAPL"), ("analysis", "original narrative")] } ∧
    (mutatedRunOut.result.workflow_history.get? 0).map
        (fun rec => mutatedRunOut.store.read rec.analysisRef) =
      some { fields := [("symbol", "AAPL"), ("analysis", "improved narrative")] } ∧
    (mutatedRunOut.result.workflow_history.get? 0).map
        (fun rec => mutatedRunOut.store.read rec.analysisRef) ≠
      mutatedRunOut.evalTrace.get? 0 := by
  refine ⟨rfl, rfl, rfl, ?_⟩
  decide

/-- C9 counterexample: constructing the workflow with `max_iterations = 0`
succeeds — `__init__` performs no validation, there is no construction
failure channel — and the run then fails at run time with the
`IndexError` of `workflow_history[-1]`. -/
theorem C9_counterexample :
    mkEvaluatorOptimizerWorkflow 0 7 =
      { max_iterations := 0, min_quality_threshold := 7 } ∧
    process_with_evaluation (mkEvaluatorOptimizerWorkflow 0 7) degradedOracle
      sampleArtifact = .error .indexError :=
  ⟨rfl, rfl⟩

/-- C9 (amended): construction performs no validation, so
`max_iterations < 1` is accepted; the invalid configuration instead
causes a run-time failure: with `max_iterations = 0` the loop body never
runs and `process_with_evaluation` raises `IndexError` reading
`workflow_history[-1]` — for every oracle and every starting artifact. -/
theorem C9_amended_runtime_failure (cfg : WorkflowConfig) (oracle : RunOracle)
    (analysis : Artifact) (h : cfg.max_iterations = 0) :
    process_with_evaluation cfg oracle analysis = .error .indexError := by
  rw [process_with_evaluation_unfold, h]
  rfl

/-- C9 amended witness: the zero-iteration configuration with a benign
oracle. -/
theorem C9_witness :
    (mkEvaluatorOptimizerWorkflow 0 7).max_iterations = 0 ∧
    process_with_evaluation (mkEvaluatorOptimizerWorkflow 0 7) fairOracle
      sampleArtifact = .error .indexError :=
  ⟨rfl, C9_amended_runtime_failure (mkEvaluatorOptimizerWorkflow 0 7) fairOracle
    sampleArtifact rfl⟩

/-- The dispatch target of any specialist label is never the (unmapped)
general analyst: unmatched labels, including `"general_analyst"` itself,
default to the news analyst. -/
theorem dispatchTargetOf_ne_general (s : String) :
    dispatchTargetOf s ≠ SpecialistType.general_analyst := by
  unfold dispatchTargetOf specialist_mapping
  simp only [List.lookup]
  repeat' split
  all_goals decide

/-- Every non-general specialist enum value has a handler in
`self.specialists`. -/
theorem specialists_lookup_of_ne_general (t : SpecialistType)
    (h : t ≠ SpecialistType.general_analyst) :
    (specialists.lookup t).isSome = true := by
  cases t
  case general_analyst => exact absurd rfl h
  all_goals rfl

/-- C10: every specialist label absent from `specialist_mapping` —
including the parse-failure fallback label `"general_analyst"`, which has
no mapping entry — dispatches to `SpecialistType.news_analyst`, and the
`"No specialist available"` branch of `process_content` is unreachable
for every oracle. -/
theorem C10_silent_news_default :
    (∀ s : String, specialist_mapping.lookup s = none →
      dispatchTargetOf s = SpecialistType.news_analyst) ∧
    specialist_mapping.lookup "general_analyst" = none ∧
    (∀ (o : ProcessOracle) (l : String) (rd : RoutingDecision),
      process_content o ≠ .noSpecialist l rd) := by
  refine ⟨?_, rfl, ?_⟩
  · intro s hs
    unfold dispatchTargetOf
    rw [hs]
    rfl
  · intro o l rd h
    rcases hro : o.routeResp with e | resp
    · simp only [process_content, hro] at h
      exact ProcessOutcome.noConfusion h
    · simp only [process_content, hro] at h
      rcases hlk : specialists.lookup (dispatchTargetOf
          ((route_content resp).specialist.getD "general_analyst")) with _ | agent
      · have hsome := specialists_lookup_of_ne_general _
          (dispatchTargetOf_ne_general
            ((route_content resp).specialist.getD "general_analyst"))
        rw [hlk] at hsome
        exact Bool.noConfusion hsome
      · simp only [hlk] at h
        rcases han : o.analyzeResp (dispatchTargetOf
            ((route_content resp).specialist.getD "general_analyst")) with e2 | text
        · simp only [han] at h
          exact ProcessOutcome.noConfusion h
        · simp only [han] at h
          exact ProcessOutcome.noConfusion h

/-- C10 witness: the fallback label itself dispatches to the news
analyst, and a concrete call (unparseable classifier output, so the
fallback label is used) does not hit the no-specialist branch. -/
theorem C10_witness :
    dispatchTargetOf "general_analyst" = SpecialistType.news_analyst ∧
    process_content okRouteOracle ≠
      .noSpecialist "general_analyst" fallbackRoutingDecision :=
  ⟨C10_silent_news_default.1 "general_analyst" rfl,
   C10_silent_news_default.2.2 okRouteOracle "general_analyst"
     fallbackRoutingDecision⟩

/-- Every normal completion of `process_with_evaluation` reports
`success = true` (the code sets the flag unconditionally in the returned
dict). -/
theorem process_ok_success (cfg : WorkflowConfig) (oracle : RunOracle)
    (analysis : Artifact) (out : RunOutput)
    (h : process_with_evaluation cfg oracle analysis = .ok out) :
    out.result.success = true := by
  have huf := process_with_evaluation_unfold cfg oracle analysis
  rcases hok : processLoop cfg oracle cfg.max_iterations 0
      { store := [analysis], curRef := 0, history := [], evalTrace := [] } with e | st
  · rw [hok] at huf
    rw [huf] at h
    exact Except.noConfusion h
  · rw [hok] at huf
    cases hh : st.history with
    | nil =>
      simp only [hh] at huf
      rw [huf] at h
      exact Except.noConfusion h
    | cons first rest =>
      simp only [hh] at huf
      rw [huf] at h
      injection h with h
      rw [← h]

/-- C8: batch isolation and ordering, for both batch entry points.
`batch_process` (and `process_multiple_content`) return one entry per
input, positionally (entry `j` is input `j`'s outcome, the order
`asyncio.gather` guarantees): when the run of input `k` raises while
every other input's run completes, entry `k` is the captured-error entry
and every other entry is a result dict with `success = true`; for the
routing batch, entry `k` is the failure dict and every other entry the
success dict. -/
theorem C8_batch_isolation :
    (∀ (cfg : WorkflowConfig) (inputs : List (RunOracle × Artifact)) (k : Nat),
      (inputs.get? k).map
        (fun p => (process_with_evaluation cfg p.1 p.2).isOk) = some false →
      (∀ j, j < inputs.length → j ≠ k →
        (inputs.get? j).map
          (fun p => (process_with_evaluation cfg p.1 p.2).isOk) = some true) →
      (batch_process cfg inputs).length = inputs.length ∧
      ((batch_process cfg inputs).get? k).map BatchEntry.isErrorEntry = some true ∧
      (∀ j, j < inputs.length → j ≠ k →
        ((batch_process cfg inputs).get? j).map BatchEntry.isSuccessResult =
          some true)) ∧
    (∀ (cInputs : List ProcessOracle) (k : Nat),
      (cInputs.get? k).map (fun o => (process_content o).isFailure) = some true →
      (∀ j, j < cInputs.length → j ≠ k →
        (cInputs.get? j).map (fun o => (process_content o).isSuccess) = some true) →
      (process_multiple_content cInputs).length = cInputs.length ∧
      ((process_multiple_content cInputs).get? k).map ProcessOutcome.isFailure =
        some true ∧
      (∀ j, j < cInputs.length → j ≠ k →
        ((process_multiple_content cInputs).get? j).map ProcessOutcome.isSuccess =
          some true)) := by
  constructor
  · intro cfg inputs k hfail hoks
    refine ⟨by simp [batch_process], ?_, ?_⟩
    · rcases hk : inputs.get? k with _ | p
      · rw [hk] at hfail
        exact Option.noConfusion hfail
      · unfold batch_process
        rw [List.get?_map, hk]
        rcases hp : process_with_evaluation cfg p.1 p.2 with e | o
        · simp only [Option.map_some', hp]
          rfl
        · rw [hk] at hfail
          simp only [Option.map_some', hp] at hfail
          simp [Except.isOk, Except.toBool] at hfail
    · intro j hj hjk
      have hj' := hoks j hj hjk
      rcases hjg : inputs.get? j with _ | p
      · rw [hjg] at hj'
        exact Option.noConfusion hj'
      · unfold batch_process
        rw [List.get?_map, hjg]
        rcases hp : process_with_evaluation cfg p.1 p.2 with e | o
        · rw [hjg] at hj'
          simp only [Option.map_some', hp] at hj'
          simp [Except.isOk, Except.toBool] at hj'
        · simp only [Option.map_some', hp]
          show some (BatchEntry.result o.result).isSuccessResult = some true
          rw [show (BatchEntry.result o.result).isSuccessResult = o.result.success
            from rfl]
          rw [process_ok_success cfg p.1 p.2 o hp]
  · intro cInputs k hfail hoks
    refine ⟨by simp [process_multiple_content], ?_, ?_⟩
    · unfold process_multiple_content
      rw [List.get?_map]
      rcases hk : cInputs.get? k with _ | o
      · rw [hk] at hfail
        exact Option.noConfusion hfail
      · rw [hk] at hfail
        simpa using hfail
    · intro j hj hjk
      have hj' := hoks j hj hjk
      unfold process_multiple_content
      rw [List.get?_map]
      rcases hjg : cInputs.get? j with _ | o
      · rw [hjg] at hj'
        exact Option.noConfusion hj'
      · rw [hjg] at hj'
        simpa using hj'

/-- C8 witness: the two concrete two-element batches, each with the
failure at index 1: both batch results have length 2, the entry at
index 1 is the captured failure, and the entry at index 0 is the sibling
success, unaffected. -/
theorem C8_witness :
    (batch_process cfg3_7 batchInputsW).length = 2 ∧
    ((batch_process cfg3_7 batchInputsW).get? 1).map BatchEntry.isErrorEntry =
      some true ∧
    ((batch_process cfg3_7 batchInputsW).get? 0).map BatchEntry.isSuccessResult =
      some true ∧
    (process_multiple_content routeInputsW).length = 2 ∧
    ((process_multiple_content routeInputsW).get? 1).map ProcessOutcome.isFailure =
      some true ∧
    ((process_multiple_content routeInputsW).get? 0).map ProcessOutcome.isSuccess =
      some true := by
  have hA := C8_batch_isolation.1 cfg3_7 batchInputsW 1 (by decide) (by decide)
  have hB := C8_batch_isolation.2 routeInputsW 1 (by decide) (by decide)
  exact ⟨hA.1, hA.2.1, hA.2.2 0 (by decide) (by decide),
    hB.1, hB.2.1, hB.2.2 0 (by decide) (by decide)⟩

end Finbrain
